import Mathlib

/-!
Verification of the GenerAI Influence Sentinel scoring core (`src/app.py`).

The Python source is a Streamlit app around a small pure scoring core.  We
embed that core shallowly:

* text is a Lean `String`; Python's `word in text.lower()` substring test
  becomes `isSubOf` on lowercased character lists;
* the external sentiment model (`sentiment_model(text)[0]`) is an input:
  the label string it returns, or `none` when the call raises;
* the history file `history.json` is a `FileState`: `missing`, or
  `present c` where `c : Option (List ℚ)` is the parse of its contents
  (`none` models contents that `json.load` rejects);
* Python floats `2`, `1.5` on these small counts behave as exact
  rationals, so scores live in `ℚ`;
* a Python exception is `Except.error ()`.
-/

namespace Sentinel

/-- `fear_words` list from `app.py` line 33. -/
def fear_words : List String :=
  ["regret", "danger", "loss", "fear", "risk", "lose", "threat"]

/-- `urgency_words` list from `app.py` line 34. -/
def urgency_words : List String :=
  ["now", "immediately", "limited", "hurry", "today", "urgent", "last chance"]

/-- Characters of `text.lower()` (Python `str.lower`, per-character). -/
def lowerChars (s : String) : List Char := s.data.map Char.toLower

/-- Leading-segment test on character lists, used to express Python's
substring containment. -/
def startsWith : List Char → List Char → Bool
  | [], _ => true
  | _ :: _, [] => false
  | a :: as, b :: bs => a == b && startsWith as bs

/-- Python's `needle in hay` on strings, as character lists: `needle` occurs
contiguously somewhere in `hay`. -/
def isSubOf (needle hay : List Char) : Bool :=
  match hay with
  | [] => needle.isEmpty
  | _ :: t => startsWith needle hay || isSubOf needle t

/-- Python `word in text.lower()`: substring containment in the lowercased text. -/
def containsWord (text w : String) : Bool := isSubOf w.data (lowerChars text)

/-- The tuple returned by `calculate_scores` (`app.py` line 54). -/
structure ScoresResult where
  fear_score : ℕ
  urgency_score : ℕ
  sentiment_score : ℕ
  total_score : ℚ
  detected_fear : List String
  detected_urgency : List String
deriving DecidableEq, Repr

/-- `calculate_scores` (`app.py` lines 42–54), with the sentiment model's
returned label passed in as `sentimentLabel`. -/
def calculate_scores (sentimentLabel : String) (text : String) : ScoresResult :=
  let detected_fear := fear_words.filter (fun word => containsWord text word)
  let detected_urgency := urgency_words.filter (fun word => containsWord text word)
  let fear_score := detected_fear.length
  let urgency_score := detected_urgency.length
  let sentiment_score : ℕ := if sentimentLabel = "NEGATIVE" then 1 else 0
  let total_score : ℚ :=
    (fear_score : ℚ) * 2 + (urgency_score : ℚ) * (1.5 : ℚ) + (sentiment_score : ℚ) * 2
  ⟨fear_score, urgency_score, sentiment_score, total_score, detected_fear, detected_urgency⟩

/-- `calculate_scores` including the sentiment-model call on its first line:
`sentiment = sentiment_model(text)[0]` has no surrounding `try`, so when the
model call fails (`modelOutput = none`) the exception propagates and no
result is produced. -/
def calculate_scoresE (modelOutput : Option String) (text : String) : Option ScoresResult :=
  match modelOutput with
  | none => none
  | some lbl => some (calculate_scores lbl text)

/-- The four risk levels of `calculate_influence_dna`. -/
inductive RiskLevel where
  | LOW | MEDIUM | HIGH | CRITICAL
deriving DecidableEq, Repr

/-- The `if dna_score >= 8 ... elif ... else` chain of `calculate_influence_dna`
(`app.py` lines 63–70). -/
def riskLevel (dna_score : ℚ) : RiskLevel :=
  if dna_score ≥ 8 then .CRITICAL
  else if dna_score ≥ 5 then .HIGH
  else if dna_score ≥ 3 then .MEDIUM
  else .LOW

/-- `calculate_influence_dna` (`app.py` lines 60–72). -/
def calculate_influence_dna (fear urgency sentiment : ℚ) : ℚ × RiskLevel :=
  let dna_score := fear * 2 + urgency * (1.5 : ℚ) + sentiment * 2
  (dna_score, riskLevel dna_score)

/-- State of the `history.json` file: absent, or present with contents that
either parse as a list of numbers or are corrupt. -/
inductive FileState where
  | missing : FileState
  | present : Option (List ℚ) → FileState
deriving DecidableEq

/-- `json.load(f)`: yields the parsed list, or raises on corrupt contents. -/
def jsonLoad : Option (List ℚ) → Except Unit (List ℚ)
  | some l => .ok l
  | none => .error ()

/-- `load_history` (`app.py` lines 90–94): if the file exists its contents go
through `json.load` (which raises on corrupt contents), otherwise `[]`. -/
def load_history : FileState → Except Unit (List ℚ)
  | .missing => .ok []
  | .present contents => jsonLoad contents

/-- `save_history` (`app.py` lines 78–88): read the existing list (or start
from `[]` when the file is absent), append `score`, write back. -/
def save_history (store : FileState) (score : ℚ) : Except Unit FileState :=
  match store with
  | .missing => .ok (.present (some [score]))
  | .present contents => do
      let history ← jsonLoad contents
      .ok (.present (some (history ++ [score])))

/-- Python `max` on a nonempty list (`max(recent)`); `0` pads the impossible
empty case, which `calculate_drift` never reaches. -/
def pyMax : List ℚ → ℚ
  | [] => 0
  | x :: xs => xs.foldl max x

/-- Python `min` on a nonempty list (`min(recent)`). -/
def pyMin : List ℚ → ℚ
  | [] => 0
  | x :: xs => xs.foldl min x

/-- `calculate_drift` (`app.py` lines 96–101): load the history, return `0`
for fewer than 2 entries, else `max − min` over `history[-5:]`
(the last five entries, i.e. `drop (length - 5)`). -/
def calculate_drift (store : FileState) : Except Unit ℚ := do
  let history ← load_history store
  if history.length < 2 then
    return 0
  else
    let recent := history.drop (history.length - 5)
    return pyMax recent - pyMin recent

/-- Python `text_input.strip()` on the character list: drop whitespace from
both ends. -/
def stripChars (l : List Char) : List Char :=
  ((l.dropWhile Char.isWhitespace).reverse.dropWhile Char.isWhitespace).reverse

/-- Outcome of one click of the Analyze button. -/
structure AnalyzeOutcome where
  warning : Bool
  record : Option (ScoresResult × ℚ × RiskLevel)
  store : FileState
deriving DecidableEq

/-- The Analyze button handler (`app.py` lines 130–140): a blank (stripped)
input is rejected with `st.warning` and `st.stop()` before any scoring or
history write; otherwise `calculate_scores`, `save_history`, then
`calculate_influence_dna` run in that order. -/
def analyze_button (modelLabel text : String) (store : FileState) :
    Except Unit AnalyzeOutcome :=
  if stripChars text.data = [] then
    .ok ⟨true, none, store⟩
  else do
    let r := calculate_scores modelLabel text
    let store2 ← save_history store r.total_score
    let dna := calculate_influence_dna
      (r.fear_score : ℚ) (r.urgency_score : ℚ) (r.sentiment_score : ℚ)
    .ok ⟨false, some (r, dna), store2⟩

/-! ## Helper lemmas -/

lemma foldl_max_spec (l : List ℚ) (a : ℚ) :
    (l.foldl max a = a ∨ l.foldl max a ∈ l) ∧ a ≤ l.foldl max a ∧
      ∀ x ∈ l, x ≤ l.foldl max a := by
  induction l generalizing a with
  | nil => simp
  | cons b t ih =>
    simp only [List.foldl_cons, List.mem_cons]
    obtain ⟨hmem, hle, hall⟩ := ih (max a b)
    refine ⟨?_, le_trans (le_max_left a b) hle, ?_⟩
    · rcases hmem with h | h
      · rcases max_choice a b with hc | hc
        · exact Or.inl (by rw [h, hc])
        · exact Or.inr (Or.inl (by rw [h, hc]))
      · exact Or.inr (Or.inr h)
    · intro x hx
      rcases hx with rfl | hx
      · exact le_trans (le_max_right _ _) hle
      · exact hall x hx

lemma foldl_min_spec (l : List ℚ) (a : ℚ) :
    (l.foldl min a = a ∨ l.foldl min a ∈ l) ∧ l.foldl min a ≤ a ∧
      ∀ x ∈ l, l.foldl min a ≤ x := by
  induction l generalizing a with
  | cons b t ih =>
    simp only [List.foldl_cons, List.mem_cons]
    obtain ⟨hmem, hle, hall⟩ := ih (min a b)
    refine ⟨?_, le_trans hle (min_le_left a b), ?_⟩
    · rcases hmem with h | h
      · rcases min_choice a b with hc | hc
        · exact Or.inl (by rw [h, hc])
        · exact Or.inr (Or.inl (by rw [h, hc]))
      · exact Or.inr (Or.inr h)
    · intro x hx
      rcases hx with rfl | hx
      · exact le_trans hle (min_le_right _ _)
      · exact hall x hx
  | nil => simp

lemma pyMax_mem {l : List ℚ} (h : l ≠ []) : pyMax l ∈ l := by
  cases l with
  | nil => exact absurd rfl h
  | cons x xs =>
    obtain ⟨hmem, -, -⟩ := foldl_max_spec xs x
    simp only [pyMax]
    rcases hmem with h1 | h1
    · rw [h1]; exact List.mem_cons_self x xs
    · exact List.mem_cons_of_mem x h1

lemma le_pyMax {l : List ℚ} {x : ℚ} (h : x ∈ l) : x ≤ pyMax l := by
  cases l with
  | nil => simp at h
  | cons y ys =>
    obtain ⟨-, hle, hall⟩ := foldl_max_spec ys y
    simp only [pyMax]
    rcases List.mem_cons.mp h with rfl | hx
    · exact hle
    · exact hall x hx

lemma pyMin_mem {l : List ℚ} (h : l ≠ []) : pyMin l ∈ l := by
  cases l with
  | nil => exact absurd rfl h
  | cons x xs =>
    obtain ⟨hmem, -, -⟩ := foldl_min_spec xs x
    simp only [pyMin]
    rcases hmem with h1 | h1
    · rw [h1]; exact List.mem_cons_self x xs
    · exact List.mem_cons_of_mem x h1

lemma pyMin_le {l : List ℚ} {x : ℚ} (h : x ∈ l) : pyMin l ≤ x := by
  cases l with
  | nil => simp at h
  | cons y ys =>
    obtain ⟨-, hle, hall⟩ := foldl_min_spec ys y
    simp only [pyMin]
    rcases List.mem_cons.mp h with rfl | hx
    · exact hle
    · exact hall x hx

lemma filter_eq_singleton {p : String → Bool} {w : String} :
    ∀ l : List String, l.Nodup → w ∈ l → p w = true →
      (∀ x ∈ l, p x = true → x = w) → l.filter p = [w] := by
  intro l
  induction l with
  | nil => intro _ h; simp at h
  | cons a t ih =>
    intro hnd hmem hpw huniq
    rcases List.mem_cons.mp hmem with rfl | hmem2
    · have ht : t.filter p = [] := by
        refine List.filter_eq_nil_iff.mpr fun x hx hpx => ?_
        have hxw := huniq x (List.mem_cons_of_mem _ hx) hpx
        exact (List.nodup_cons.mp hnd).1 (hxw ▸ hx)
      simp [List.filter_cons, hpw, ht]
    · have haw : a ≠ w := fun h => (List.nodup_cons.mp hnd).1 (h ▸ hmem2)
      have hpa : p a = false := by
        cases hp : p a
        · rfl
        · exact absurd (huniq a (List.mem_cons_self a t) hp) haw
      rw [List.filter_cons, if_neg (by simp [hpa])]
      exact ih (List.nodup_cons.mp hnd).2 hmem2 hpw
        fun x hx hpx => huniq x (List.mem_cons_of_mem _ hx) hpx

lemma stripChars_eq_nil {l : List Char} (h : ∀ c ∈ l, c.isWhitespace) :
    stripChars l = [] := by
  have h1 : l.dropWhile Char.isWhitespace = [] := List.dropWhile_eq_nil_iff.mpr h
  simp [stripChars, h1]

/-! ## Claims -/

/-- C1: for every sentiment-model label and every text, `calculate_scores`
returns `total_score = fear_count*2 + urgency_count*1.5 + negativity*2`,
where the negativity value is the 0/1 polarity flag that is 1 exactly when
the label is `"NEGATIVE"` (so the negativity weight of this profile is 2),
and the fear/urgency counts are the numbers of fear- and urgency-lexicon
phrases detected in the text. -/
theorem C1_total_score_formula (lbl text : String) :
    (calculate_scores lbl text).total_score =
      ((calculate_scores lbl text).fear_score : ℚ) * 2 +
        ((calculate_scores lbl text).urgency_score : ℚ) * (1.5 : ℚ) +
        ((calculate_scores lbl text).sentiment_score : ℚ) * 2 ∧
    (calculate_scores lbl text).sentiment_score =
      (if lbl = "NEGATIVE" then 1 else 0) ∧
    (calculate_scores lbl text).fear_score =
      (fear_words.filter (fun w => containsWord text w)).length ∧
    (calculate_scores lbl text).urgency_score =
      (urgency_words.filter (fun w => containsWord text w)).length :=
  ⟨rfl, rfl, rfl, rfl⟩

/-- C2: the risk level of `calculate_influence_dna` is the top-down,
first-match, inclusive-lower-bound threshold map of its DNA score:
`≥ 8` CRITICAL, `≥ 5` HIGH, `≥ 3` MEDIUM, else LOW; in particular a DNA
score of 7.999 gives HIGH, 8.0 gives CRITICAL, 2.999 gives LOW and
3.0 gives MEDIUM. -/
theorem C2_risk_thresholds (q f u s : ℚ) :
    (calculate_influence_dna f u s).1 = f * 2 + u * (1.5 : ℚ) + s * 2 ∧
    (calculate_influence_dna f u s).2 = riskLevel (calculate_influence_dna f u s).1 ∧
    (8 ≤ q → riskLevel q = .CRITICAL) ∧
    (5 ≤ q → q < 8 → riskLevel q = .HIGH) ∧
    (3 ≤ q → q < 5 → riskLevel q = .MEDIUM) ∧
    (q < 3 → riskLevel q = .LOW) ∧
    riskLevel (7.999 : ℚ) = .HIGH ∧ riskLevel (8 : ℚ) = .CRITICAL ∧
    riskLevel (2.999 : ℚ) = .LOW ∧ riskLevel (3 : ℚ) = .MEDIUM := by
  refine ⟨rfl, rfl, ?_, ?_, ?_, ?_, ?_, ?_, ?_, ?_⟩ <;>
    first
      | (intro h1; unfold riskLevel; split_ifs <;> first | rfl | linarith)
      | (intro h1 h2; unfold riskLevel; split_ifs <;> first | rfl | linarith)
      | (unfold riskLevel; norm_num)

theorem C2_witness :
    riskLevel 9 = .CRITICAL ∧ riskLevel 6 = .HIGH ∧
      riskLevel 4 = .MEDIUM ∧ riskLevel 1 = .LOW :=
  ⟨(C2_risk_thresholds 9 0 0 0).2.2.1 (by norm_num),
   (C2_risk_thresholds 6 0 0 0).2.2.2.1 (by norm_num) (by norm_num),
   (C2_risk_thresholds 4 0 0 0).2.2.2.2.1 (by norm_num) (by norm_num),
   (C2_risk_thresholds 1 0 0 0).2.2.2.2.2.1 (by norm_num)⟩

/-- C3: the DNA score of `calculate_influence_dna` is computed by the very
weighted formula of `calculate_scores`, so on the fear count, urgency count
and sentiment flag produced by `calculate_scores` for any text and label it
coincides with that call's `total_score`. -/
theorem C3_dna_equals_total (f u s : ℕ) (lbl text : String) :
    (calculate_influence_dna (f : ℚ) (u : ℚ) (s : ℚ)).1 =
      (f : ℚ) * 2 + (u : ℚ) * (1.5 : ℚ) + (s : ℚ) * 2 ∧
    (calculate_influence_dna ((calculate_scores lbl text).fear_score : ℚ)
        ((calculate_scores lbl text).urgency_score : ℚ)
        ((calculate_scores lbl text).sentiment_score : ℚ)).1 =
      (calculate_scores lbl text).total_score :=
  ⟨rfl, rfl⟩

/-- C4: `calculate_drift` returns 0 on a freshly initialized (missing) store
and on any history with fewer than 2 entries; on a history with at least 2
entries it returns `max w - min w` where `w` is the window of the last
`min 5 length` entries (the final segment of the history). -/
theorem C4_drift_window (h w : List ℚ) :
    calculate_drift .missing = .ok 0 ∧
    (h.length < 2 → calculate_drift (.present (some h)) = .ok 0) ∧
    (2 ≤ h.length → w = h.drop (h.length - 5) →
      calculate_drift (.present (some h)) = .ok (pyMax w - pyMin w) ∧
      w.length = min 5 h.length ∧
      h.take (h.length - 5) ++ w = h ∧
      pyMax w ∈ w ∧ (∀ x ∈ w, x ≤ pyMax w) ∧
      pyMin w ∈ w ∧ (∀ x ∈ w, pyMin w ≤ x)) := by
  have hred : calculate_drift (.present (some h)) =
      if h.length < 2 then .ok 0
      else .ok (pyMax (h.drop (h.length - 5)) - pyMin (h.drop (h.length - 5))) := rfl
  refine ⟨rfl, ?_, ?_⟩
  · intro hlt
    rw [hred, if_pos hlt]
  · intro hge hw
    have hlen : w.length = min 5 h.length := by
      rw [hw, List.length_drop]; omega
    have hne : w ≠ [] := by
      intro hnil
      rw [hnil] at hlen
      simp at hlen
      omega
    refine ⟨?_, hlen, by rw [hw]; exact List.take_append_drop _ h,
      pyMax_mem hne, fun x hx => le_pyMax hx, pyMin_mem hne, fun x hx => pyMin_le hx⟩
    rw [hred, if_neg (by omega), hw]

theorem C4_witness : calculate_drift (.present (some [1, 5])) = .ok 4 := by
  have h4 := ((C4_drift_window [1, 5] [1, 5]).2.2 (by norm_num) (by norm_num)).1
  rw [h4]
  norm_num [pyMax, pyMin]

/-- C5: the claim says a failing sentiment model degrades to lexicon-only
scoring; in the source, `calculate_scores` opens with an unguarded
`sentiment_model(text)[0]`, so a model failure (`none`) propagates and no
analysis result is produced — the claimed fallback path does not exist. -/
theorem C5_model_failure_fails_analysis :
    calculate_scoresE none "Limited offer today! Hurry before you lose this opportunity." =
      none :=
  rfl

/-- C6: for an empty or whitespace-only input, the Analyze handler warns and
stops before scoring: it reports the warning, produces no score record, and
leaves the history store exactly as it was. -/
theorem C6_blank_input_rejected (lbl text : String) (store : FileState)
    (hw : ∀ c ∈ text.data, c.isWhitespace) :
    analyze_button lbl text store = .ok ⟨true, none, store⟩ := by
  unfold analyze_button
  rw [if_pos (stripChars_eq_nil hw)]

theorem C6_witness :
    analyze_button "POSITIVE" " " .missing = .ok ⟨true, none, .missing⟩ :=
  C6_blank_input_rejected "POSITIVE" " " .missing (by decide)

/-- C7: the claim says an unreadable or corrupt history store is treated as
empty; in the source, `load_history` only handles a *missing* file (giving
`[]`) — when the file exists with corrupt contents, `json.load` raises and
the error propagates instead of yielding the empty history. -/
theorem C7_corrupt_history_raises :
    load_history (.present none) = .error () ∧ load_history .missing = .ok [] :=
  ⟨rfl, rfl⟩

/-- C8: `save_history s` turns a store holding the entries `prior` into a
store holding exactly `prior ++ [s]` (and a missing store into `[s]`): the
prior entries are preserved unchanged and in order as the leading segment,
and exactly one entry is added. -/
theorem C8_save_history_appends (prior : List ℚ) (s : ℚ) :
    save_history (.present (some prior)) s = .ok (.present (some (prior ++ [s]))) ∧
    save_history .missing s = .ok (.present (some [s])) ∧
    (prior ++ [s]).take prior.length = prior ∧
    (prior ++ [s]).length = prior.length + 1 := by
  refine ⟨rfl, rfl, ?_, by simp⟩
  simp [List.take_left]

/-- C9: any text in which exactly one fear-lexicon word is detected, no
urgency-lexicon word is detected, and whose sentiment label is not
`"NEGATIVE"` (no negativity signal) scores `fear_count = 1`,
`urgency_count = 0`, `total_score = 2.0` under the fear-weight-2 profile. -/
theorem C9_single_fear_word (lbl text w : String)
    (hmem : w ∈ fear_words) (hdet : containsWord text w = true)
    (huniq : ∀ x ∈ fear_words, containsWord text x = true → x = w)
    (hurg : ∀ x ∈ urgency_words, containsWord text x = false)
    (hneg : lbl ≠ "NEGATIVE") :
    (calculate_scores lbl text).fear_score = 1 ∧
    (calculate_scores lbl text).urgency_score = 0 ∧
    (calculate_scores lbl text).total_score = 2 := by
  have hf : fear_words.filter (fun x => containsWord text x) = [w] :=
    filter_eq_singleton fear_words (by decide) hmem hdet huniq
  have hu : urgency_words.filter (fun x => containsWord text x) = [] :=
    List.filter_eq_nil_iff.mpr fun x hx => by simp [hurg x hx]
  have hs : (if lbl = "NEGATIVE" then (1 : ℕ) else 0) = 0 := if_neg hneg
  refine ⟨?_, ?_, ?_⟩ <;> simp [calculate_scores, hf, hu, hs]

theorem C9_witness :
    (calculate_scores "POSITIVE" "there is danger").fear_score = 1 ∧
    (calculate_scores "POSITIVE" "there is danger").urgency_score = 0 ∧
    (calculate_scores "POSITIVE" "there is danger").total_score = 2 :=
  C9_single_fear_word "POSITIVE" "there is danger" "danger" (by decide) (by decide)
    (by decide) (by decide) (by decide)

/-- C10: each lexicon phrase contributes at most once to its detected-match
list (the lists are duplicate-free), each count equals the length of its
match list, so `fear_count ≤ 7` and `urgency_count ≤ 7` (the lexicon sizes),
the sentiment flag is at most 1, and `total_score ≤ 2*7 + 1.5*7 + 2 = 26.5`. -/
theorem C10_dedup_and_bounds (lbl text : String) :
    (calculate_scores lbl text).detected_fear.Nodup ∧
    (calculate_scores lbl text).detected_urgency.Nodup ∧
    (calculate_scores lbl text).fear_score =
      (calculate_scores lbl text).detected_fear.length ∧
    (calculate_scores lbl text).urgency_score =
      (calculate_scores lbl text).detected_urgency.length ∧
    (calculate_scores lbl text).fear_score ≤ 7 ∧
    (calculate_scores lbl text).urgency_score ≤ 7 ∧
    (calculate_scores lbl text).sentiment_score ≤ 1 ∧
    (calculate_scores lbl text).total_score ≤ (26.5 : ℚ) := by
  have hf : (calculate_scores lbl text).fear_score ≤ 7 := List.length_filter_le _ _
  have hu : (calculate_scores lbl text).urgency_score ≤ 7 := List.length_filter_le _ _
  have hseq : (calculate_scores lbl text).sentiment_score =
      (if lbl = "NEGATIVE" then 1 else 0) := rfl
  have hs : (calculate_scores lbl text).sentiment_score ≤ 1 := by
    rw [hseq]; split <;> norm_num
  refine ⟨(by decide : fear_words.Nodup).filter _,
    (by decide : urgency_words.Nodup).filter _, rfl, rfl, hf, hu, hs, ?_⟩
  have htot : (calculate_scores lbl text).total_score =
      ((calculate_scores lbl text).fear_score : ℚ) * 2 +
        ((calculate_scores lbl text).urgency_score : ℚ) * (1.5 : ℚ) +
        ((calculate_scores lbl text).sentiment_score : ℚ) * 2 := rfl
  rw [htot]
  have hf2 : ((calculate_scores lbl text).fear_score : ℚ) ≤ 7 := by exact_mod_cast hf
  have hu2 : ((calculate_scores lbl text).urgency_score : ℚ) ≤ 7 := by exact_mod_cast hu
  have hs2 : ((calculate_scores lbl text).sentiment_score : ℚ) ≤ 1 := by exact_mod_cast hs
  nlinarith [hf2, hu2, hs2]

end Sentinel
